import Mathlib

/-
Shallow embedding of the PTY session manager in `src-tauri/src/terminal.rs`
(module `terminal`, struct `TerminalManager`) together with the per-session
reader thread spawned inside `TerminalManager::create_terminal`.

Modelling decisions, each tied to a place in the source:

* `TerminalHandle` (terminal.rs, lines 25-28) owns the PTY writer and the
  reader-thread join handle.  We model the writer by the list of strings the
  manager has successfully pushed into it (`delivered`) plus a `broken` flag:
  `broken = true` models a writer whose underlying stream rejects the
  `write_all`/`flush` calls (e.g. the child exited and the pipe is broken).
  The join handle is never used by any operation, so it has no model field.

* The registry `terminals : Arc<Mutex<HashMap<String, TerminalHandle>>>`
  (line 22) is modelled as an association list with the `HashMap` operations
  `get_mut`/`insert`/`remove`: lookup of the first matching key, in-place
  replacement on insert, removal of the entry.  Every registry a real
  `TerminalManager` can reach has pairwise-distinct keys (it comes from a
  `HashMap`); theorems that start from an arbitrary registry carry that as
  the hypothesis `(r.map Prod.fst).Nodup`.  All calls run under the single
  mutex, so each operation is a function from registry to registry.

* `create_terminal` (lines 37-120): the fallible backend section
  (`openpty`, `spawn_command`, `try_clone_reader`, `take_writer`, lines
  44-74) is abstracted by one `backendOk : Bool`; every failure point
  returns with `?` before the registry is touched, so on `backendOk = false`
  the registry is unchanged and an error is returned.  On success the built
  `PtySize` and `CommandBuilder` are exposed in the `spawned` field so that
  the geometry/command claims can inspect them, and the handle is inserted
  with `HashMap::insert` semantics (line 117) - note no duplicate-id check.

* The reader thread closure (lines 80-110) is modelled by `readerThread`:
  it consumes the sequence of results the blocking `reader.read` calls
  produce (`ReadResult`), decodes each nonempty chunk with
  `String::from_utf8_lossy` (modelled by `utf8Lossy`), and afterwards waits
  on the child; `child.wait()` returning `Ok(status)` is `some code`, an
  `Err` is `none` (in which case line 100's `if let Ok` emits nothing).
  The closure never touches the registry, which is why `readerThread` has
  no registry argument.
-/

namespace KubeTerm

/-- Model of `TerminalHandle` (terminal.rs lines 25-28): the PTY writer is
represented by what has been successfully written through it and whether the
underlying stream rejects writes. -/
structure TerminalHandle where
  delivered : List String
  broken : Bool
deriving DecidableEq, Repr

/-- The registry `HashMap<String, TerminalHandle>` as an association list. -/
abbrev Registry := List (String × TerminalHandle)

/-- `HashMap::get` / `get_mut`: first entry with the key. -/
def findEntry : Registry → String → Option TerminalHandle
  | [], _ => none
  | (k, v) :: rest, id => if k = id then some v else findEntry rest id

/-- `HashMap::insert`: replace the entry for the key in place, or append. -/
def insertEntry : Registry → String → TerminalHandle → Registry
  | [], id, h => [(id, h)]
  | (k, v) :: rest, id, h =>
    if k = id then (id, h) :: rest else (k, v) :: insertEntry rest id h

/-- `HashMap::remove`: drop the entry with the key, if present. -/
def removeEntry : Registry → String → Registry
  | [], _ => []
  | (k, v) :: rest, id => if k = id then rest else (k, v) :: removeEntry rest id

/-- The `PtySize` struct passed to `openpty` (terminal.rs lines 47-52). -/
structure PtySize where
  rows : Nat
  cols : Nat
  pixel_width : Nat
  pixel_height : Nat
deriving DecidableEq, Repr

/-- `portable_pty::CommandBuilder` as far as `create_terminal` uses it:
the program, the `env` calls in the order they were made, and the `cwd`. -/
structure CommandBuilder where
  prog : String
  envActions : List (String × String)
  cwd : Option String
deriving DecidableEq, Repr

/-- The net environment the child sees for a key: `CommandBuilder::env` is
last-write-wins, so the last action for the key decides. -/
def finalEnv (c : CommandBuilder) (k : String) : Option String :=
  (c.envActions.reverse.find? (fun kv => kv.1 == k)).map (fun kv => kv.2)

/-- The geometry hard-coded at terminal.rs lines 47-52. -/
def initialPtySize : PtySize :=
  { rows := 24, cols := 80, pixel_width := 0, pixel_height := 0 }

/-- Command construction in `create_terminal` (terminal.rs lines 55-66):
`CommandBuilder::new("bash")`, then `env("TERM", "xterm-256color")`, then
`cwd` if given, then one `env` call per entry of the override map. -/
def buildCommand (cwd : Option String) (env : Option (List (String × String))) :
    CommandBuilder :=
  let cmd : CommandBuilder :=
    { prog := "bash", envActions := [("TERM", "xterm-256color")], cwd := none }
  let cmd : CommandBuilder :=
    match cwd with
    | some p => { cmd with cwd := some p }
    | none => cmd
  match env with
  | some vars => { cmd with envActions := cmd.envActions ++ vars }
  | none => cmd

/-- A handle as freshly stored by `create_terminal` (terminal.rs 112-115):
nothing written yet, stream healthy. -/
def freshHandle : TerminalHandle := { delivered := [], broken := false }

/-- Everything observable about one `create_terminal` call: the registry
afterwards, the returned `Result`, and (on backend success) the `PtySize`
and `CommandBuilder` handed to the backend. -/
structure CreateResult where
  registry : Registry
  result : Except String String
  spawned : Option (PtySize × CommandBuilder)

/-- `TerminalManager::create_terminal` (terminal.rs lines 37-120).
`backendOk` abstracts the fallible `openpty`/`spawn`/handle-duplication
section (lines 44-74); each of those failure points returns via `?` before
the registry is touched.  On success the handle is stored with
`HashMap::insert` (line 117) - an existing entry for `id` is replaced. -/
def create_terminal (r : Registry) (id : String) (cwd : Option String)
    (env : Option (List (String × String))) (backendOk : Bool) : CreateResult :=
  if backendOk then
    { registry := insertEntry r id freshHandle
      result := Except.ok id
      spawned := some (initialPtySize, buildCommand cwd env) }
  else
    { registry := r
      result := Except.error "Failed to open PTY"
      spawned := none }

/-- `TerminalManager::write_to_terminal` (terminal.rs lines 122-138):
look up the handle; absent id is an error and changes nothing; a broken
stream makes `write_all`/`flush` fail, the error propagates via `?` and the
entry stays in the map untouched; otherwise the data is written and flushed. -/
def write_to_terminal (r : Registry) (id : String) (data : String) :
    Registry × Except String Unit :=
  match findEntry r id with
  | some h =>
    if h.broken then
      (r, Except.error "Failed to write to terminal")
    else
      (insertEntry r id { h with delivered := h.delivered ++ [data] }, Except.ok ())
  | none => (r, Except.error ("Terminal " ++ id ++ " not found"))

/-- `TerminalManager::resize_terminal` (terminal.rs lines 140-144): the body
ignores the id and the geometry and returns `Ok(())` unconditionally
("portable-pty doesn't support resize after creation"). -/
def resize_terminal (r : Registry) (id : String) (cols rows : Nat) :
    Registry × Except String Unit :=
  (r, Except.ok ())

/-- `TerminalManager::close_terminal` (terminal.rs lines 146-154):
`remove(id)` and succeed iff something was removed. -/
def close_terminal (r : Registry) (id : String) : Registry × Except String Unit :=
  if (findEntry r id).isSome then
    (removeEntry r id, Except.ok ())
  else
    (r, Except.error ("Terminal " ++ id ++ " not found"))

/-- U+FFFD, what `String::from_utf8_lossy` substitutes for ill-formed input. -/
def replacementChar : Char := Char.ofNat 0xFFFD

/-- Is the byte a UTF-8 continuation byte (`0x80..=0xBF`)? -/
def isCont (b : Nat) : Bool := 0x80 ≤ b && b ≤ 0xBF

/-- Lower bound of the second byte after a three-byte lead (UTF-8 excludes
overlong encodings: lead `0xE0` requires `0xA0..`). -/
def snd3Lo (b : Nat) : Nat := if b = 0xE0 then 0xA0 else 0x80

/-- Upper bound of the second byte after a three-byte lead (UTF-8 excludes
surrogates: lead `0xED` allows only `..0x9F`). -/
def snd3Hi (b : Nat) : Nat := if b = 0xED then 0x9F else 0xBF

/-- Lower bound of the second byte after a four-byte lead (lead `0xF0`
requires `0x90..` to exclude overlong encodings). -/
def snd4Lo (b : Nat) : Nat := if b = 0xF0 then 0x90 else 0x80

/-- Upper bound of the second byte after a four-byte lead (lead `0xF4`
allows only `..0x8F`, capping at U+10FFFF). -/
def snd4Hi (b : Nat) : Nat := if b = 0xF4 then 0x8F else 0xBF

/-- Decode one scalar value starting at lead byte `b` with the following
bytes `rest`: the decoded character (or `replacementChar` for a maximal
ill-formed subsequence) and the bytes not consumed.  Decoding resumes at
the first byte the ill-formed subsequence does not contain. -/
def utf8Step (b : Nat) (rest : List Nat) : Char × List Nat :=
  if b ≤ 0x7F then
    (Char.ofNat b, rest)
  else if 0xC2 ≤ b && b ≤ 0xDF then
    match rest with
    | [] => (replacementChar, [])
    | b2 :: rest2 =>
      if isCont b2 then
        (Char.ofNat ((b - 0xC0) * 0x40 + (b2 - 0x80)), rest2)
      else
        (replacementChar, rest)
  else if 0xE0 ≤ b && b ≤ 0xEF then
    match rest with
    | [] => (replacementChar, [])
    | b2 :: rest2 =>
      if snd3Lo b ≤ b2 && b2 ≤ snd3Hi b then
        match rest2 with
        | [] => (replacementChar, [])
        | b3 :: rest3 =>
          if isCont b3 then
            (Char.ofNat ((b - 0xE0) * 0x1000 + (b2 - 0x80) * 0x40 + (b3 - 0x80)), rest3)
          else
            (replacementChar, rest2)
      else
        (replacementChar, rest)
  else if 0xF0 ≤ b && b ≤ 0xF4 then
    match rest with
    | [] => (replacementChar, [])
    | b2 :: rest2 =>
      if snd4Lo b ≤ b2 && b2 ≤ snd4Hi b then
        match rest2 with
        | [] => (replacementChar, [])
        | b3 :: rest3 =>
          if isCont b3 then
            match rest3 with
            | [] => (replacementChar, [])
            | b4 :: rest4 =>
              if isCont b4 then
                (Char.ofNat ((b - 0xF0) * 0x40000 + (b2 - 0x80) * 0x1000 +
                    (b3 - 0x80) * 0x40 + (b4 - 0x80)), rest4)
              else
                (replacementChar, rest3)
          else
            (replacementChar, rest2)
      else
        (replacementChar, rest)
  else
    (replacementChar, rest)

/-- `String::from_utf8_lossy` (used at terminal.rs line 86): total UTF-8
decoding; each maximal ill-formed subsequence becomes one `replacementChar`.
The loop terminates because `utf8Step` always consumes the lead byte
(it never returns more bytes than it was handed). -/
def utf8Lossy : List Nat → List Char
  | [] => []
  | b :: rest =>
    (utf8Step b rest).1 :: utf8Lossy (utf8Step b rest).2
termination_by l => l.length
decreasing_by
  simp_wf
  refine Nat.lt_succ_of_le
    ((fun (b : Nat) (rest : List Nat) =>
      (by
        unfold utf8Step
        repeat' split
        all_goals simp_all [List.length_cons]
        all_goals omega : (utf8Step b rest).2.length ≤ rest.length)) _ _)

/-- The decoded text of one read chunk, as a `String`. -/
def utf8LossyString (bs : List Nat) : String := String.mk (utf8Lossy bs)

/-- One result of the blocking `reader.read(&mut buf)` call (terminal.rs
line 83): `ok bs` is `Ok(n)` with the `n` bytes read (`ok []` is `Ok(0)`,
end of stream); `err` is `Err(_)`. -/
inductive ReadResult where
  | ok (bs : List Nat)
  | err
deriving DecidableEq, Repr

/-- An event emitted to the Tauri `AppHandle` (the event sink):
`terminal:data` payloads (lines 87-93) and `terminal:exit` payloads
(lines 102-108). -/
inductive Event where
  | data (id : String) (text : String)
  | exit (id : String) (code : Int)
deriving DecidableEq, Repr

/-- Is the event a `terminal:exit` event? -/
def Event.isExit : Event → Bool
  | .exit _ _ => true
  | .data _ _ => false

/-- The `loop` of the reader thread (terminal.rs lines 82-97) run over the
sequence of read results: `Ok(0)` and `Err(_)` both `break`; `Ok(n)` with
`n > 0` emits one `terminal:data` event with the lossily decoded bytes.
Emission failures are swallowed (`let _ = ...`), so the event list is the
sequence handed to the sink. -/
def readEvents (id : String) : List ReadResult → List Event
  | [] => []
  | ReadResult.ok [] :: _ => []
  | ReadResult.ok (b :: bs) :: rest =>
    Event.data id (utf8LossyString (b :: bs)) :: readEvents id rest
  | ReadResult.err :: _ => []

/-- The whole reader thread closure (terminal.rs lines 80-110): run the read
loop, then `child.wait()`; on `Ok(status)` (`wait = some code`) emit one
`terminal:exit` event, on `Err(_)` (`wait = none`) emit nothing (line 100's
`if let Ok`).  The closure holds no reference to the registry. -/
def readerThread (id : String) (reads : List ReadResult) (wait : Option Int) :
    List Event :=
  readEvents id reads ++
    match wait with
    | some code => [Event.exit id code]
    | none => []

/-- With pairwise-distinct keys, `find?` by key returns the member pair. -/
theorem find_first_of_nodup (l : List (String × String)) (k v : String)
    (hnd : (l.map Prod.fst).Nodup) (hmem : (k, v) ∈ l) :
    l.find? (fun kv => kv.1 == k) = some (k, v) := by
  induction l with
  | nil => simp at hmem
  | cons kv2 rest ih =>
    obtain ⟨k2, v2⟩ := kv2
    simp only [List.map_cons, List.nodup_cons] at hnd
    rcases List.mem_cons.mp hmem with heq | hmem2
    · rw [← heq]
      simp [List.find?]
    · have hne : k2 ≠ k := by
        intro hkk
        subst hkk
        exact hnd.1 (List.mem_map_of_mem Prod.fst hmem2)
      have hpred : ((fun kv => kv.1 == k) (k2, v2)) = false := by
        simp [hne]
      simp only [List.find?, hpred]
      exact ih hnd.2 hmem2

/-- `find?` looks in the left part of an append first. -/
theorem find_append_left (p : String × String → Bool)
    (l1 l2 : List (String × String)) (a : String × String)
    (h : l1.find? p = some a) : (l1 ++ l2).find? p = some a := by
  induction l1 with
  | nil => simp [List.find?] at h
  | cons x rest ih =>
    cases hx : p x with
    | true =>
      simp only [List.find?, hx] at h
      simp only [List.cons_append, List.find?, hx]
      exact h
    | false =>
      simp only [List.find?, hx] at h
      simp only [List.cons_append, List.find?, hx]
      exact ih h

/-- `find?` succeeds when some member satisfies the predicate. -/
theorem find_isSome_of_mem (p : String × String → Bool)
    (l : List (String × String)) (a : String × String)
    (ha : a ∈ l) (hp : p a = true) : (l.find? p).isSome := by
  induction l with
  | nil => simp at ha
  | cons x rest ih =>
    cases hx : p x with
    | true => simp [List.find?, hx]
    | false =>
      rcases List.mem_cons.mp ha with heq | hmem
      · subst heq
        rw [hp] at hx
        cases hx
      · simp only [List.find?, hx]
        exact ih hmem

/-- The `env` calls `create_terminal` makes, in order: first the `TERM`
default, then the entries of the override map. -/
theorem buildCommand_envActions (cwd : Option String)
    (env : Option (List (String × String))) :
    (buildCommand cwd env).envActions =
      ("TERM", "xterm-256color") :: env.getD [] := by
  cases cwd <;> cases env <;> rfl

/-- The interpreter is always `bash`. -/
theorem buildCommand_prog (cwd : Option String)
    (env : Option (List (String × String))) :
    (buildCommand cwd env).prog = "bash" := by
  cases cwd <;> cases env <;> rfl

/-- A given working directory is applied. -/
theorem buildCommand_cwd (p : String) (env : Option (List (String × String))) :
    (buildCommand (some p) env).cwd = some p := by
  cases env <;> rfl

/-- `TERM` ends up set whatever the caller passes. -/
theorem finalEnv_term_isSome (cwd : Option String)
    (env : Option (List (String × String))) :
    (finalEnv (buildCommand cwd env) "TERM").isSome := by
  have h := find_isSome_of_mem (fun kv => kv.1 == "TERM")
    (buildCommand cwd env).envActions.reverse ("TERM", "xterm-256color")
    (by rw [buildCommand_envActions]; simp) (by simp)
  simp only [finalEnv]
  obtain ⟨a, ha⟩ := Option.isSome_iff_exists.mp h
  simp [ha]

/-- With pairwise-distinct override keys (a `HashMap` guarantees this), each
override entry decides its key's final value: the overrides are applied after
the manager's defaults, so they win. -/
theorem finalEnv_override (cwd : Option String) (l : List (String × String))
    (k v : String) (hnd : (l.map Prod.fst).Nodup) (hmem : (k, v) ∈ l) :
    finalEnv (buildCommand cwd (some l)) k = some v := by
  have hact := buildCommand_envActions cwd (some l)
  simp only [finalEnv, hact, Option.getD, List.reverse_cons]
  have hrevnd : (l.reverse.map Prod.fst).Nodup := by
    rw [List.map_reverse]
    exact List.nodup_reverse.mpr hnd
  have hfind := find_first_of_nodup l.reverse k v hrevnd (List.mem_reverse.mpr hmem)
  rw [find_append_left _ _ _ _ hfind]
  rfl

/-- The read loop emits only `terminal:data` events. -/
theorem readEvents_no_exit (id : String) (reads : List ReadResult) :
    ∀ e ∈ readEvents id reads, e.isExit = false := by
  induction reads with
  | nil => simp [readEvents]
  | cons r rest ih =>
    cases r with
    | ok bs =>
      cases bs with
      | nil => simp [readEvents]
      | cons b tl =>
        intro e he
        simp only [readEvents, List.mem_cons] at he
        rcases he with he | he
        · subst he
          rfl
        · exact ih e he
    | err => simp [readEvents]

/-- Looking up the key just inserted finds the inserted handle. -/
theorem findEntry_insertEntry_self (r : Registry) (id : String) (h : TerminalHandle) :
    findEntry (insertEntry r id h) id = some h := by
  induction r with
  | nil => simp [insertEntry, findEntry]
  | cons kv rest ih =>
    obtain ⟨k, v⟩ := kv
    by_cases hk : k = id
    · simp [insertEntry, findEntry, hk]
    · simp [insertEntry, findEntry, hk, ih]

/-- A key absent from the key list is not found. -/
theorem findEntry_eq_none_of_not_mem (r : Registry) (id : String)
    (hid : id ∉ r.map Prod.fst) : findEntry r id = none := by
  induction r with
  | nil => rfl
  | cons kv rest ih =>
    obtain ⟨k, v⟩ := kv
    simp only [List.map_cons, List.mem_cons] at hid
    push_neg at hid
    have hk : ¬ k = id := Ne.symm hid.1
    simp [findEntry, hk, ih hid.2]

/-- The keys after an insert are the old keys and possibly the new one. -/
theorem mem_map_fst_insertEntry (r : Registry) (id x : String) (h : TerminalHandle) :
    x ∈ (insertEntry r id h).map Prod.fst ↔ x ∈ r.map Prod.fst ∨ x = id := by
  induction r with
  | nil => simp [insertEntry]
  | cons kv rest ih =>
    obtain ⟨k, v⟩ := kv
    by_cases hk : k = id
    · subst hk
      simp [insertEntry]
      tauto
    · simp [insertEntry, hk, ih]
      tauto

/-- `HashMap::insert` keeps the keys pairwise distinct. -/
theorem nodup_insertEntry (r : Registry) (id : String) (h : TerminalHandle)
    (hnd : (r.map Prod.fst).Nodup) : ((insertEntry r id h).map Prod.fst).Nodup := by
  induction r with
  | nil => simp [insertEntry]
  | cons kv rest ih =>
    obtain ⟨k, v⟩ := kv
    simp only [List.map_cons, List.nodup_cons] at hnd
    by_cases hk : k = id
    · subst hk
      simp only [insertEntry, eq_self_iff_true, if_true, List.map_cons, List.nodup_cons]
      exact hnd
    · simp only [insertEntry, if_neg hk, List.map_cons, List.nodup_cons]
      refine ⟨?_, ih hnd.2⟩
      intro hmem
      rcases (mem_map_fst_insertEntry rest id k h).mp hmem with hin | heq
      · exact hnd.1 hin
      · exact hk heq

/-- With pairwise-distinct keys, removing a key makes it unfindable. -/
theorem findEntry_removeEntry_self (r : Registry) (id : String)
    (hnd : (r.map Prod.fst).Nodup) : findEntry (removeEntry r id) id = none := by
  induction r with
  | nil => rfl
  | cons kv rest ih =>
    obtain ⟨k, v⟩ := kv
    simp only [List.map_cons, List.nodup_cons] at hnd
    by_cases hk : k = id
    · subst hk
      simp only [removeEntry, if_pos rfl]
      exact findEntry_eq_none_of_not_mem rest k hnd.1
    · simp [removeEntry, findEntry, hk, ih hnd.2]

/-- C4: writing to an id that is not in the registry fails with the
not-found error and is atomic: the registry (and with it every session's
received bytes) is exactly as before the call. -/
theorem write_unknown_id_fails (r : Registry) (id : String) (data : String)
    (hfind : findEntry r id = none) :
    write_to_terminal r id data =
      (r, Except.error ("Terminal " ++ id ++ " not found")) := by
  simp [write_to_terminal, hfind]

/-- Witness for `write_unknown_id_fails`: `write("ghost", "x")` on an id
never created fails with the not-found error and changes nothing. -/
theorem write_unknown_id_fails_witness :
    write_to_terminal [] "ghost" "x" =
      ([], Except.error ("Terminal " ++ "ghost" ++ " not found")) :=
  write_unknown_id_fails [] "ghost" "x" rfl

/-- C5: a write whose underlying stream rejects it returns the io error,
but the whole registry is unchanged: the entry for the id is still present
with the same handle (only an explicit `close` removes it), and no other
entry changes. -/
theorem write_broken_stream_keeps_entry (r : Registry) (id : String)
    (h : TerminalHandle) (data : String)
    (hfind : findEntry r id = some h) (hbroken : h.broken = true) :
    write_to_terminal r id data = (r, Except.error "Failed to write to terminal") ∧
    findEntry (write_to_terminal r id data).1 id = some h := by
  constructor
  · simp [write_to_terminal, hfind, hbroken]
  · simp [write_to_terminal, hfind, hbroken]

/-- Witness for `write_broken_stream_keeps_entry` at a one-session registry
whose stream is broken. -/
theorem write_broken_stream_keeps_entry_witness :
    write_to_terminal [("t1", { delivered := [], broken := true })] "t1" "x" =
      ([("t1", { delivered := [], broken := true })],
        Except.error "Failed to write to terminal") ∧
    findEntry
      (write_to_terminal [("t1", { delivered := [], broken := true })] "t1" "x").1
      "t1" = some { delivered := [], broken := true } :=
  write_broken_stream_keeps_entry _ "t1" _ "x" rfl rfl

/-- C6: on a registry with pairwise-distinct keys (as every `HashMap` is),
the first `close` of a registered id succeeds and removes the entry, a
second `close` fails with the not-found error, and a `close` of an id that
is not registered fails with the not-found error. -/
theorem close_twice :
    (∀ (r : Registry) (id : String) (h : TerminalHandle),
      (r.map Prod.fst).Nodup → findEntry r id = some h →
        (close_terminal r id).2 = Except.ok () ∧
        findEntry (close_terminal r id).1 id = none ∧
        (close_terminal (close_terminal r id).1 id).2 =
          Except.error ("Terminal " ++ id ++ " not found")) ∧
    (∀ (r : Registry) (id : String), findEntry r id = none →
      (close_terminal r id).2 = Except.error ("Terminal " ++ id ++ " not found")) := by
  constructor
  · intro r id h hnd hfind
    have h1 : close_terminal r id = (removeEntry r id, Except.ok ()) := by
      simp [close_terminal, hfind]
    have h2 : findEntry (removeEntry r id) id = none :=
      findEntry_removeEntry_self r id hnd
    refine ⟨by rw [h1], by rw [h1]; exact h2, ?_⟩
    rw [h1]
    simp [close_terminal, h2]
  · intro r id hfind
    simp [close_terminal, hfind]

/-- Witness for `close_twice`: close "t1" twice on a one-session registry,
and close "ghost" on the empty registry. -/
theorem close_twice_witness :
    (close_terminal [("t1", freshHandle)] "t1").2 = Except.ok () ∧
    findEntry (close_terminal [("t1", freshHandle)] "t1").1 "t1" = none ∧
    (close_terminal (close_terminal [("t1", freshHandle)] "t1").1 "t1").2 =
      Except.error ("Terminal " ++ "t1" ++ " not found") ∧
    (close_terminal [] "ghost").2 =
      Except.error ("Terminal " ++ "ghost" ++ " not found") := by
  obtain ⟨h1, h2, h3⟩ :=
    close_twice.1 [("t1", freshHandle)] "t1" freshHandle (by simp) rfl
  exact ⟨h1, h2, h3, close_twice.2 [] "ghost" rfl⟩

/-- C7: `resize_terminal` returns success for every id (registered or not)
and every geometry: its body ignores the arguments and returns `Ok(())`
because the backend cannot resize a PTY after creation (the documented
limitation in the source comment). -/
theorem resize_always_ok (r : Registry) (id : String) (cols rows : Nat) :
    resize_terminal r id cols rows = (r, Except.ok ()) := rfl

/-- C9: every successful `create_terminal` opens the PTY at the fixed
80x24 geometry, runs the fixed interpreter `bash`, always has `TERM` set,
applies the working directory when given, and applies every
environment-override entry (the override map has pairwise-distinct keys,
as any `HashMap` iteration does). -/
theorem create_fixed_geometry_and_command (r : Registry) (id : String)
    (cwd : Option String) (env : Option (List (String × String))) :
    ∃ sz cmd, (create_terminal r id cwd env true).spawned = some (sz, cmd) ∧
      sz.cols = 80 ∧ sz.rows = 24 ∧
      cmd.prog = "bash" ∧
      (finalEnv cmd "TERM").isSome ∧
      (∀ p, cwd = some p → cmd.cwd = some p) ∧
      (∀ l, env = some l → (l.map Prod.fst).Nodup →
        ∀ k v, (k, v) ∈ l → finalEnv cmd k = some v) := by
  refine ⟨initialPtySize, buildCommand cwd env, rfl, rfl, rfl,
    buildCommand_prog cwd env, finalEnv_term_isSome cwd env, ?_, ?_⟩
  · intro p hp
    subst hp
    exact buildCommand_cwd p env
  · intro l hl hnd k v hmem
    subst hl
    exact finalEnv_override cwd l k v hnd hmem

/-- Witness for `create_fixed_geometry_and_command` with a concrete working
directory and a concrete override entry. -/
theorem create_fixed_geometry_and_command_witness :
    ∃ sz cmd,
      (create_terminal [] "t1" (some "/tmp") (some [("FOO", "bar")]) true).spawned
        = some (sz, cmd) ∧
      sz.cols = 80 ∧ sz.rows = 24 ∧ cmd.prog = "bash" ∧
      (finalEnv cmd "TERM").isSome ∧ cmd.cwd = some "/tmp" ∧
      finalEnv cmd "FOO" = some "bar" := by
  obtain ⟨sz, cmd, h1, h2, h3, h4, h5, h6, h7⟩ :=
    create_fixed_geometry_and_command [] "t1" (some "/tmp") (some [("FOO", "bar")])
  exact ⟨sz, cmd, h1, h2, h3, h4, h5, h6 "/tmp" rfl,
    h7 [("FOO", "bar")] rfl (by simp) "FOO" "bar" (by simp)⟩

/-- C10: the override map's `TERM` entry is applied after the manager's
default `env("TERM", "xterm-256color")` call, so the child's `TERM` is the
override's value. -/
theorem term_override_wins (cwd : Option String) (l : List (String × String))
    (v : String) (hnd : (l.map Prod.fst).Nodup) (hmem : ("TERM", v) ∈ l) :
    finalEnv (buildCommand cwd (some l)) "TERM" = some v :=
  finalEnv_override cwd l "TERM" v hnd hmem

/-- Witness for `term_override_wins`: overriding `TERM` with `vt100`. -/
theorem term_override_wins_witness :
    finalEnv (buildCommand none (some [("TERM", "vt100")])) "TERM" = some "vt100" :=
  term_override_wins none [("TERM", "vt100")] "vt100" (by simp) (by simp)

/-- C1 counterexample: `create("t1")` then `create("t1")` again - the second
call does NOT fail with a duplicate-id error, it returns `Ok("t1")`; and
after a write has reached the first session, the second `create` replaces
the registry entry with the fresh handle, so the original session's write
handle is no longer reachable through the registry. -/
theorem create_duplicate_id_counterexample :
    (create_terminal (create_terminal [] "t1" none none true).registry
        "t1" none none true).result = Except.ok "t1" ∧
    findEntry
      (create_terminal
        (write_to_terminal (create_terminal [] "t1" none none true).registry
          "t1" "x").1
        "t1" none none true).registry "t1" = some freshHandle := by
  constructor <;> rfl

/-- C1 amended: creating with an id that is already registered succeeds
(returns `Ok(id)`) and silently replaces the existing entry with the new
session's fresh handle - `HashMap::insert` semantics, no duplicate check. -/
theorem create_duplicate_id_replaces (r : Registry) (id : String)
    (h : TerminalHandle) (cwd : Option String)
    (env : Option (List (String × String)))
    (hreg : findEntry r id = some h) :
    (create_terminal r id cwd env true).result = Except.ok id ∧
    findEntry (create_terminal r id cwd env true).registry id = some freshHandle :=
  ⟨rfl, findEntry_insertEntry_self r id freshHandle⟩

/-- Witness for `create_duplicate_id_replaces` at a registry already holding
a written-to session under "t1". -/
theorem create_duplicate_id_replaces_witness :
    (create_terminal [("t1", { delivered := ["x"], broken := false })]
        "t1" none none true).result = Except.ok "t1" ∧
    findEntry
      (create_terminal [("t1", { delivered := ["x"], broken := false })]
        "t1" none none true).registry "t1" = some freshHandle :=
  create_duplicate_id_replaces _ "t1" { delivered := ["x"], broken := false }
    none none rfl

/-- C2 counterexample: after `create("t1")` and a successful `close("t1")`,
`resize("t1", 120, 40)` does NOT fail with a not-found error - it returns
`Ok(())`, because `resize_terminal` ignores the id entirely. -/
theorem resize_after_close_counterexample :
    (resize_terminal
      (close_terminal (create_terminal [] "t1" none none true).registry "t1").1
      "t1" 120 40).2 = Except.ok () := rfl

/-- C2 amended: after `create(id)` immediately followed by a (successful)
`close(id)`, a subsequent `write` or `close` on that id fails with the
not-found error, but `resize` still returns success (its body is an
unconditional no-op). -/
theorem close_then_ops_amended (r : Registry) (id : String) (data : String)
    (cols rows : Nat) (hnd : (r.map Prod.fst).Nodup) :
    (close_terminal (create_terminal r id none none true).registry id).2 =
      Except.ok () ∧
    (write_to_terminal
      (close_terminal (create_terminal r id none none true).registry id).1
      id data).2 = Except.error ("Terminal " ++ id ++ " not found") ∧
    (close_terminal
      (close_terminal (create_terminal r id none none true).registry id).1
      id).2 = Except.error ("Terminal " ++ id ++ " not found") ∧
    resize_terminal
      (close_terminal (create_terminal r id none none true).registry id).1
      id cols rows =
      ((close_terminal (create_terminal r id none none true).registry id).1,
        Except.ok ()) := by
  have hr1 : (create_terminal r id none none true).registry =
      insertEntry r id freshHandle := rfl
  have hfind : findEntry (insertEntry r id freshHandle) id = some freshHandle :=
    findEntry_insertEntry_self r id freshHandle
  have hclose : close_terminal (insertEntry r id freshHandle) id =
      (removeEntry (insertEntry r id freshHandle) id, Except.ok ()) := by
    simp [close_terminal, hfind]
  have hnd1 : ((insertEntry r id freshHandle).map Prod.fst).Nodup :=
    nodup_insertEntry r id freshHandle hnd
  have hgone : findEntry (removeEntry (insertEntry r id freshHandle) id) id = none :=
    findEntry_removeEntry_self _ id hnd1
  rw [hr1, hclose]
  refine ⟨rfl, ?_, ?_, rfl⟩
  · simp [write_to_terminal, hgone]
  · simp [close_terminal, hgone]

/-- Witness for `close_then_ops_amended` from the empty registry. -/
theorem close_then_ops_amended_witness :
    (close_terminal (create_terminal [] "t1" none none true).registry "t1").2 =
      Except.ok () ∧
    (write_to_terminal
      (close_terminal (create_terminal [] "t1" none none true).registry "t1").1
      "t1" "x").2 = Except.error ("Terminal " ++ "t1" ++ " not found") ∧
    (close_terminal
      (close_terminal (create_terminal [] "t1" none none true).registry "t1").1
      "t1").2 = Except.error ("Terminal " ++ "t1" ++ " not found") ∧
    resize_terminal
      (close_terminal (create_terminal [] "t1" none none true).registry "t1").1
      "t1" 120 40 =
      ((close_terminal (create_terminal [] "t1" none none true).registry "t1").1,
        Except.ok ()) :=
  close_then_ops_amended [] "t1" "x" 120 40 (by simp)

/-- C3 counterexample: a session whose `child.wait()` fails emits NO
`terminal:exit` event at all (terminal.rs line 100 silently drops the
`Err` case), so "exactly one exit event per session" does not hold. -/
theorem exit_event_missing_counterexample :
    readerThread "t1" [ReadResult.err] none = [] ∧
    ((readerThread "t1" [ReadResult.err] none).filter Event.isExit).length ≠ 1 := by
  constructor
  · rfl
  · decide

/-- C3 amended: a session emits at most one `terminal:exit` event; when the
wait on the child succeeds it emits exactly one, as the final event, after
every `terminal:data` event of the session (the read loop emits only data
events); when the wait fails it emits none.  `readerThread` takes no
registry argument: the emission never consults the registry, so it happens
whether or not the entry for the id still exists. -/
theorem exit_event_amended (id : String) (reads : List ReadResult)
    (wait : Option Int) :
    ((readerThread id reads wait).filter Event.isExit).length ≤ 1 ∧
    (∀ code, wait = some code →
      readerThread id reads wait = readEvents id reads ++ [Event.exit id code]) ∧
    (wait = none → readerThread id reads wait = readEvents id reads) ∧
    (∀ e ∈ readEvents id reads, e.isExit = false) := by
  have hnil : (readEvents id reads).filter Event.isExit = [] := by
    rw [List.filter_eq_nil_iff]
    intro a ha
    simp [readEvents_no_exit id reads a ha]
  refine ⟨?_, ?_, ?_, readEvents_no_exit id reads⟩
  · cases wait with
    | none => simp [readerThread, hnil]
    | some code => simp [readerThread, List.filter_append, hnil, Event.isExit]
  · intro code hc
    subst hc
    rfl
  · intro hc
    subst hc
    simp [readerThread]

/-- Witness for `exit_event_amended`: one data chunk, wait succeeds with
exit code 0. -/
theorem exit_event_amended_witness :
    ((readerThread "t1" [ReadResult.ok [104]] (some 0)).filter Event.isExit).length ≤ 1 ∧
    readerThread "t1" [ReadResult.ok [104]] (some 0) =
      readEvents "t1" [ReadResult.ok [104]] ++ [Event.exit "t1" 0] := by
  obtain ⟨h1, h2, h3, h4⟩ := exit_event_amended "t1" [ReadResult.ok [104]] (some 0)
  exact ⟨h1, h2 0 rfl⟩

/-- C8: every successful read of `n > 0` bytes emits exactly one
`terminal:data` event carrying the lossily decoded bytes (the decoder is a
total function - it never fails, an ill-formed byte such as `0xF5..0xFF`
becomes the replacement character U+FFFD); a zero-byte read (`Ok(0)`) and a
read error (`Err`) are treated identically - both end the read loop and the
thread proceeds to wait for the child, with identical event traces. -/
theorem reader_loop_step_behavior :
    (∀ (id : String) (b : Nat) (bs : List Nat) (rest : List ReadResult),
      readEvents id (ReadResult.ok (b :: bs) :: rest) =
        Event.data id (utf8LossyString (b :: bs)) :: readEvents id rest) ∧
    (∀ (id : String) (rest rest2 : List ReadResult) (wait : Option Int),
      readerThread id (ReadResult.ok [] :: rest) wait =
        readerThread id (ReadResult.err :: rest2) wait) ∧
    (∀ b : Nat, 0xF5 ≤ b → utf8Lossy [b] = [replacementChar]) := by
  refine ⟨fun id b bs rest => rfl, fun id rest rest2 wait => rfl, ?_⟩
  intro b hb
  have h1 : ¬ (b ≤ 0x7F) := by omega
  have h2 : ¬ (0xC2 ≤ b ∧ b ≤ 0xDF) := by omega
  have h3 : ¬ (0xE0 ≤ b ∧ b ≤ 0xEF) := by omega
  have h4 : ¬ (0xF0 ≤ b ∧ b ≤ 0xF4) := by omega
  simp [utf8Lossy, utf8Step, h1, h2, h3, h4]

/-- Witness for `reader_loop_step_behavior`: a one-byte read of `h` (0x68),
the end-of-stream versus read-error traces, and the lossy decoding of the
ill-formed byte 0xFF. -/
theorem reader_loop_step_behavior_witness :
    readEvents "t1" [ReadResult.ok [104]] =
      Event.data "t1" (utf8LossyString [104]) :: readEvents "t1" [] ∧
    readerThread "t1" [ReadResult.ok []] (some 0) =
      readerThread "t1" [ReadResult.err] (some 0) ∧
    utf8Lossy [255] = [replacementChar] := by
  obtain ⟨h1, h2, h3⟩ := reader_loop_step_behavior
  exact ⟨h1 "t1" 104 [] [], h2 "t1" [] [] (some 0), h3 255 (by decide)⟩

end KubeTerm
